import Mathlib

set_option autoImplicit false

/-!
Verification of the PocketBase Zoho OAuth2 provider
(`tools/auth/zoho.go`) against its specification.

The development shallowly embeds:
* the JSON value model produced by Go's `encoding/json` when decoding
  into `map[string]interface{}` (`jwt.MapClaims`),
* base64url decoding as used by `jwt/v4.DecodeSegment`
  (`base64.RawURLEncoding`, unpadded),
* `jwt/v4.Parser.ParseUnverified` (segment split, header and claim
  decode, signature segment untouched),
* `jwt/v4.MapClaims.VerifyAudience`,
* `Zoho.parseIDToken` and `Zoho.FetchAuthUser` from `zoho.go`.

Go machine behaviour is embedded explicitly: a failed non-comma-ok type
assertion is a runtime panic, modelled by a dedicated result
constructor; the comma-ok form yields the zero value on failure.
-/

namespace ZohoAuth

/-- JSON values as decoded by Go's `encoding/json` into `interface{}`.
Numbers decode to `float64` in Go; none of the embedded code inspects a
numeric value, so the model keeps the raw lexeme. -/
inductive JsonValue where
  | null : JsonValue
  | bool (b : Bool) : JsonValue
  | num (raw : String) : JsonValue
  | str (s : String) : JsonValue
  | arr (elems : List JsonValue) : JsonValue
  | obj (fields : List (String × JsonValue)) : JsonValue
deriving Repr

mutual

/-- Decidable equality for `JsonValue` (the automatic derivation does
not support nested inductives). -/
def jsonDecEq : (a b : JsonValue) → Decidable (a = b)
  | .null, .null => isTrue rfl
  | .null, .bool _ => isFalse nofun
  | .null, .num _ => isFalse nofun
  | .null, .str _ => isFalse nofun
  | .null, .arr _ => isFalse nofun
  | .null, .obj _ => isFalse nofun
  | .bool _, .null => isFalse nofun
  | .bool a, .bool b =>
    if h : a = b then isTrue (by rw [h]) else isFalse (fun he => h (by injection he))
  | .bool _, .num _ => isFalse nofun
  | .bool _, .str _ => isFalse nofun
  | .bool _, .arr _ => isFalse nofun
  | .bool _, .obj _ => isFalse nofun
  | .num _, .null => isFalse nofun
  | .num _, .bool _ => isFalse nofun
  | .num a, .num b =>
    if h : a = b then isTrue (by rw [h]) else isFalse (fun he => h (by injection he))
  | .num _, .str _ => isFalse nofun
  | .num _, .arr _ => isFalse nofun
  | .num _, .obj _ => isFalse nofun
  | .str _, .null => isFalse nofun
  | .str _, .bool _ => isFalse nofun
  | .str _, .num _ => isFalse nofun
  | .str a, .str b =>
    if h : a = b then isTrue (by rw [h]) else isFalse (fun he => h (by injection he))
  | .str _, .arr _ => isFalse nofun
  | .str _, .obj _ => isFalse nofun
  | .arr _, .null => isFalse nofun
  | .arr _, .bool _ => isFalse nofun
  | .arr _, .num _ => isFalse nofun
  | .arr _, .str _ => isFalse nofun
  | .arr xs, .arr ys =>
    match jsonDecEqList xs ys with
    | isTrue h => isTrue (by rw [h])
    | isFalse h => isFalse (fun he => h (by injection he))
  | .arr _, .obj _ => isFalse nofun
  | .obj _, .null => isFalse nofun
  | .obj _, .bool _ => isFalse nofun
  | .obj _, .num _ => isFalse nofun
  | .obj _, .str _ => isFalse nofun
  | .obj _, .arr _ => isFalse nofun
  | .obj xs, .obj ys =>
    match jsonDecEqFields xs ys with
    | isTrue h => isTrue (by rw [h])
    | isFalse h => isFalse (fun he => h (by injection he))

/-- Decidable equality for lists of `JsonValue`. -/
def jsonDecEqList : (a b : List JsonValue) → Decidable (a = b)
  | [], [] => isTrue rfl
  | [], _ :: _ => isFalse nofun
  | _ :: _, [] => isFalse nofun
  | x :: xs, y :: ys =>
    match jsonDecEq x y with
    | isFalse h =>
      isFalse (fun he => h (by injection he))
    | isTrue h1 =>
      match jsonDecEqList xs ys with
      | isTrue h2 => isTrue (by rw [h1, h2])
      | isFalse h2 => isFalse (fun he => h2 (by injection he))

/-- Decidable equality for JSON object field lists. -/
def jsonDecEqFields : (a b : List (String × JsonValue)) → Decidable (a = b)
  | [], [] => isTrue rfl
  | [], _ :: _ => isFalse nofun
  | _ :: _, [] => isFalse nofun
  | (k, v) :: xs, (l, w) :: ys =>
    if hk : k = l then
      match jsonDecEq v w with
      | isFalse h =>
        isFalse (fun he => by
          injection he with hp ht
          exact h (congrArg Prod.snd hp))
      | isTrue hv =>
        match jsonDecEqFields xs ys with
        | isTrue ht => isTrue (by rw [hk, hv, ht])
        | isFalse ht => isFalse (fun he => ht (by injection he))
    else
      isFalse (fun he => by
        injection he with hp ht
        exact hk (congrArg Prod.fst hp))

end

instance : DecidableEq JsonValue := jsonDecEq

instance {ε α : Type} [DecidableEq ε] [DecidableEq α] :
    DecidableEq (Except ε α) := fun a b =>
  match a, b with
  | .ok x, .ok y =>
    if h : x = y then isTrue (by rw [h]) else isFalse (fun he => h (by injection he))
  | .ok _, .error _ => isFalse nofun
  | .error _, .ok _ => isFalse nofun
  | .error x, .error y =>
    if h : x = y then isTrue (by rw [h]) else isFalse (fun he => h (by injection he))

/-- `jwt.MapClaims`, i.e. `map[string]interface{}`, as an association
list with unique keys (the JSON object decoder overwrites duplicates). -/
abbrev Claims := List (String × JsonValue)

/-- Map lookup, `m[key]` (`nil` interface when absent). -/
def claimLookup (claims : Claims) (key : String) : Option JsonValue :=
  match claims with
  | [] => none
  | (k, v) :: rest => if k = key then some v else claimLookup rest key

/-- Map assignment `m[key] = v`: overwrite an existing binding in place,
else append. -/
def insertClaim (claims : Claims) (key : String) (v : JsonValue) : Claims :=
  match claims with
  | [] => [(key, v)]
  | (k, w) :: rest =>
    if k = key then (k, v) :: rest else (k, w) :: insertClaim rest key v

/-! ## base64url (Go `base64.RawURLEncoding`, as used by
`jwt.DecodeSegment` with padding decoding disabled, the default) -/

/-- Value of one base64url alphabet character. -/
def b64Val (c : Char) : Option Nat :=
  if 'A' ≤ c ∧ c ≤ 'Z' then some (c.toNat - 65)
  else if 'a' ≤ c ∧ c ≤ 'z' then some (c.toNat - 97 + 26)
  else if '0' ≤ c ∧ c ≤ '9' then some (c.toNat - 48 + 52)
  else if c = '-' then some 62
  else if c = '_' then some 63
  else none

/-- Unpadded base64url decoding to a byte list.  A remainder of one
character, or any character outside the alphabet, is an error, as in
Go's `RawURLEncoding.DecodeString` (Go's skipping of embedded newline
characters is not modelled). -/
def base64urlDecode : List Char → Except String (List Nat)
  | [] => .ok []
  | [_] => .error "illegal base64 data"
  | [a, b] =>
    match b64Val a, b64Val b with
    | some va, some vb => .ok [va * 4 + vb / 16]
    | _, _ => .error "illegal base64 data"
  | [a, b, c] =>
    match b64Val a, b64Val b, b64Val c with
    | some va, some vb, some vc =>
      .ok [va * 4 + vb / 16, (vb % 16) * 16 + vc / 4]
    | _, _, _ => .error "illegal base64 data"
  | a :: b :: c :: d :: rest =>
    match b64Val a, b64Val b, b64Val c, b64Val d with
    | some va, some vb, some vc, some vd =>
      match base64urlDecode rest with
      | .ok bytes =>
        .ok ((va * 4 + vb / 16) :: ((vb % 16) * 16 + vc / 4) ::
             ((vc % 4) * 64 + vd) :: bytes)
      | .error e => .error e
    | _, _, _, _ => .error "illegal base64 data"

/-! ## UTF-8 decoding (Go strings are byte slices; `encoding/json`
coerces invalid UTF-8 inside string literals to U+FFFD rather than
failing) -/

/-- The Unicode replacement character U+FFFD. -/
def replacementChar : Char := Char.ofNat 0xFFFD

/-- Whether a byte is a UTF-8 continuation byte. -/
def isCont (b : Nat) : Bool := 0x80 ≤ b ∧ b < 0xC0

/-- Decode one UTF-8 sequence starting at byte `b` with lookahead
`rest`; yields the character and the count of lookahead bytes consumed.
Malformed sequences yield U+FFFD consuming only `b`, mirroring Go's
replacement behaviour. -/
def utf8Step (b : Nat) (rest : List Nat) : Char × Nat :=
  if b < 0x80 then (Char.ofNat b, 0)
  else if 0xC2 ≤ b ∧ b ≤ 0xDF then
    match rest with
    | c1 :: _ =>
      if isCont c1 then (Char.ofNat ((b - 0xC0) * 64 + (c1 - 0x80)), 1)
      else (replacementChar, 0)
    | [] => (replacementChar, 0)
  else if 0xE0 ≤ b ∧ b ≤ 0xEF then
    match rest with
    | c1 :: c2 :: _ =>
      if isCont c1 ∧ isCont c2 then
        let v := (b - 0xE0) * 4096 + (c1 - 0x80) * 64 + (c2 - 0x80)
        if v < 0x800 ∨ (0xD800 ≤ v ∧ v ≤ 0xDFFF) then (replacementChar, 0)
        else (Char.ofNat v, 2)
      else (replacementChar, 0)
    | _ => (replacementChar, 0)
  else if 0xF0 ≤ b ∧ b ≤ 0xF4 then
    match rest with
    | c1 :: c2 :: c3 :: _ =>
      if isCont c1 ∧ isCont c2 ∧ isCont c3 then
        let v := (b - 0xF0) * 262144 + (c1 - 0x80) * 4096 +
                 (c2 - 0x80) * 64 + (c3 - 0x80)
        if v < 0x10000 ∨ 0x10FFFF < v then (replacementChar, 0)
        else (Char.ofNat v, 3)
      else (replacementChar, 0)
    | _ => (replacementChar, 0)
  else (replacementChar, 0)

/-- Fuel-driven UTF-8 decoding loop; each step consumes at least one
byte, so fuel `length + 1` never runs out. -/
def utf8DecodeAux : Nat → List Nat → List Char
  | 0, _ => []
  | _, [] => []
  | fuel + 1, b :: rest =>
    let step := utf8Step b rest
    step.1 :: utf8DecodeAux fuel (rest.drop step.2)

/-- Total UTF-8 decoding of a byte list. -/
def utf8Decode (bytes : List Nat) : List Char :=
  utf8DecodeAux (bytes.length + 1) bytes

/-! ## JSON parsing (Go `encoding/json` decoding into
`map[string]interface{}`) -/

/-- Skip JSON whitespace. -/
def jsonSkipWs : List Char → List Char
  | [] => []
  | c :: rest =>
    if c = ' ' ∨ c = '\t' ∨ c = '\n' ∨ c = '\r' then jsonSkipWs rest
    else c :: rest

/-- Consume an expected literal tail (for `null`, `true`, `false`). -/
def expectLit : List Char → List Char → Option (List Char)
  | [], input => some input
  | l :: ls, c :: rest => if c = l then expectLit ls rest else none
  | _ :: _, [] => none

/-- Decimal digit test. -/
def isDigitChar (c : Char) : Bool := '0' ≤ c ∧ c ≤ '9'

/-- Hexadecimal digit value. -/
def hexVal (c : Char) : Option Nat :=
  if '0' ≤ c ∧ c ≤ '9' then some (c.toNat - 48)
  else if 'a' ≤ c ∧ c ≤ 'f' then some (c.toNat - 97 + 10)
  else if 'A' ≤ c ∧ c ≤ 'F' then some (c.toNat - 65 + 10)
  else none

/-- Split off a maximal run of decimal digits. -/
def scanDigits : List Char → List Char × List Char
  | [] => ([], [])
  | c :: rest =>
    if isDigitChar c then
      let (ds, rest1) := scanDigits rest
      (c :: ds, rest1)
    else ([], c :: rest)

/-- Scan an optional fraction part (`.` with at least one digit); when
absent or malformed nothing is consumed and the surrounding parse
rejects the leftover characters. -/
def scanFracPart : List Char → List Char × List Char
  | '.' :: r =>
    match scanDigits r with
    | ([], _) => ([], '.' :: r)
    | (ds, r1) => ('.' :: ds, r1)
  | input => ([], input)

/-- Scan an optional exponent part (`e`/`E`, optional sign, at least
one digit). -/
def scanExpPart : List Char → List Char × List Char
  | e :: r =>
    if e = 'e' ∨ e = 'E' then
      let (signPart, r1) :=
        match r with
        | s :: r2 => if s = '+' ∨ s = '-' then ([s], r2) else (([] : List Char), s :: r2)
        | [] => (([] : List Char), [])
      match scanDigits r1 with
      | ([], _) => ([], e :: r)
      | (ds, r2) => (e :: (signPart ++ ds), r2)
    else ([], e :: r)
  | [] => ([], [])

/-- Scan a JSON number per the RFC 8259 grammar, returning its lexeme
(optional minus, integer part without leading zeros, optional fraction,
optional exponent). -/
def scanNumber (input : List Char) : Except String (String × List Char) :=
  let (minusPart, afterMinus) :=
    match input with
    | '-' :: rest => (['-'], rest)
    | _ => (([] : List Char), input)
  match afterMinus with
  | [] => .error "invalid number literal"
  | c :: rest =>
    if isDigitChar c then
      let (intTail, afterInt) :=
        if c = '0' then (([] : List Char), rest) else scanDigits rest
      let (fracPart, afterFrac) := scanFracPart afterInt
      let (expPart, afterExp) := scanExpPart afterFrac
      .ok (String.mk (minusPart ++ c :: intTail ++ fracPart ++ expPart), afterExp)
    else .error "invalid number literal"

/-- Parse four hex digits. -/
def parseHex4 (input : List Char) : Option (Nat × List Char) :=
  match input with
  | a :: b :: c :: d :: rest =>
    match hexVal a, hexVal b, hexVal c, hexVal d with
    | some va, some vb, some vc, some vd =>
      some (va * 4096 + vb * 256 + vc * 16 + vd, rest)
    | _, _, _, _ => none
  | _ => none

/-- Scan a JSON string body after the opening quote.  Control bytes
below 0x20 are rejected; `\u` escapes combine surrogate pairs and turn
unpaired surrogates into U+FFFD, as Go's decoder does. -/
def scanString (fuel : Nat) (input : List Char) (acc : List Char) :
    Except String (String × List Char) :=
  match fuel with
  | 0 => .error "unexpected end of JSON input"
  | fuel + 1 =>
    match input with
    | [] => .error "unexpected end of JSON input"
    | c :: rest =>
      if c = '"' then .ok (String.mk acc.reverse, rest)
      else if c = '\\' then
        match rest with
        | [] => .error "unexpected end of JSON input"
        | e :: rest1 =>
          if e = '"' then scanString fuel rest1 ('"' :: acc)
          else if e = '\\' then scanString fuel rest1 ('\\' :: acc)
          else if e = '/' then scanString fuel rest1 ('/' :: acc)
          else if e = 'b' then scanString fuel rest1 (Char.ofNat 8 :: acc)
          else if e = 'f' then scanString fuel rest1 (Char.ofNat 12 :: acc)
          else if e = 'n' then scanString fuel rest1 ('\n' :: acc)
          else if e = 'r' then scanString fuel rest1 ('\r' :: acc)
          else if e = 't' then scanString fuel rest1 ('\t' :: acc)
          else if e = 'u' then
            match parseHex4 rest1 with
            | none => .error "invalid unicode escape"
            | some (v, rest2) =>
              if 0xD800 ≤ v ∧ v < 0xDC00 then
                match rest2 with
                | '\\' :: 'u' :: rest3 =>
                  match parseHex4 rest3 with
                  | some (w, rest4) =>
                    if 0xDC00 ≤ w ∧ w < 0xE000 then
                      scanString fuel rest4
                        (Char.ofNat (0x10000 + (v - 0xD800) * 1024 + (w - 0xDC00)) :: acc)
                    else scanString fuel rest2 (replacementChar :: acc)
                  | none => scanString fuel rest2 (replacementChar :: acc)
                | _ => scanString fuel rest2 (replacementChar :: acc)
              else if 0xDC00 ≤ v ∧ v < 0xE000 then
                scanString fuel rest2 (replacementChar :: acc)
              else scanString fuel rest2 (Char.ofNat v :: acc)
          else .error "invalid escape character"
      else if c.toNat < 0x20 then .error "invalid control character in string"
      else scanString fuel rest (c :: acc)

/-- The state of the recursive-descent JSON parser: parsing a value,
the members of an object, or the elements of an array. -/
inductive ParseMode where
  | value : ParseMode
  | objRest (acc : Claims) : ParseMode
  | arrRest (acc : List JsonValue) : ParseMode

/-- Recursive-descent JSON parsing, structurally recursive on fuel
(one unit per grammar recursion; characters consumed strictly grow, so
fuel `length + 1` never runs out). -/
def parseCore : Nat → ParseMode → List Char →
    Except String (JsonValue × List Char)
  | 0, _, _ => .error "unexpected end of JSON input"
  | fuel + 1, .value, input =>
    (match jsonSkipWs input with
    | [] => .error "unexpected end of JSON input"
    | c :: rest =>
      if c = 'n' then
        match expectLit ['u', 'l', 'l'] rest with
        | some rest1 => .ok (.null, rest1)
        | none => .error "invalid character"
      else if c = 't' then
        match expectLit ['r', 'u', 'e'] rest with
        | some rest1 => .ok (.bool true, rest1)
        | none => .error "invalid character"
      else if c = 'f' then
        match expectLit ['a', 'l', 's', 'e'] rest with
        | some rest1 => .ok (.bool false, rest1)
        | none => .error "invalid character"
      else if c = '"' then
        match scanString (rest.length + 1) rest [] with
        | .ok (s, rest1) => .ok (.str s, rest1)
        | .error e => .error e
      else if c = '{' then
        match jsonSkipWs rest with
        | '}' :: rest1 => .ok (.obj [], rest1)
        | rest1 => parseCore fuel (.objRest []) rest1
      else if c = '[' then
        match jsonSkipWs rest with
        | ']' :: rest1 => .ok (.arr [], rest1)
        | rest1 => parseCore fuel (.arrRest []) rest1
      else if c = '-' ∨ isDigitChar c then
        match scanNumber (c :: rest) with
        | .ok (lexeme, rest1) => .ok (.num lexeme, rest1)
        | .error e => .error e
      else .error "invalid character")
  | fuel + 1, .objRest acc, input =>
    (match jsonSkipWs input with
    | '"' :: rest =>
      match scanString (rest.length + 1) rest [] with
      | .error e => .error e
      | .ok (key, rest1) =>
        match jsonSkipWs rest1 with
        | ':' :: rest2 =>
          match parseCore fuel .value rest2 with
          | .error e => .error e
          | .ok (v, rest3) =>
            match jsonSkipWs rest3 with
            | ',' :: rest4 => parseCore fuel (.objRest (insertClaim acc key v)) rest4
            | '}' :: rest4 => .ok (.obj (insertClaim acc key v), rest4)
            | _ => .error "invalid character after object member"
        | _ => .error "invalid character after object key"
    | _ => .error "invalid character looking for object key")
  | fuel + 1, .arrRest acc, input =>
    (match parseCore fuel .value input with
    | .error e => .error e
    | .ok (v, rest1) =>
      match jsonSkipWs rest1 with
      | ',' :: rest2 => parseCore fuel (.arrRest (acc ++ [v])) rest2
      | ']' :: rest2 => .ok (.arr (acc ++ [v]), rest2)
      | _ => .error "invalid character after array element")

/-- Parse one JSON value. -/
def parseValue (fuel : Nat) (input : List Char) :
    Except String (JsonValue × List Char) :=
  parseCore fuel .value input

/-- `json.Unmarshal` of a byte slice into `interface{}`: decode UTF-8,
parse one value, and reject trailing non-whitespace. -/
def jsonUnmarshal (bytes : List Nat) : Except String JsonValue :=
  let chars := utf8Decode bytes
  match parseValue (chars.length + 1) chars with
  | .error e => .error e
  | .ok (v, rest) =>
    match jsonSkipWs rest with
    | [] => .ok v
    | _ => .error "invalid character after top-level value"

/-- `json.Unmarshal` into `map[string]interface{}`: the document must
be a JSON object. -/
def jsonUnmarshalObj (bytes : List Nat) : Except String Claims :=
  match jsonUnmarshal bytes with
  | .ok (.obj fields) => .ok fields
  | .ok _ => .error "json: cannot unmarshal value into map"
  | .error e => .error e

/-- `json.Decoder.Decode` into `map[string]interface{}`, as
`ParseUnverified` uses for the claims segment: decodes the first JSON
value and ignores trailing bytes. -/
def jsonDecodeObj (bytes : List Nat) : Except String Claims :=
  let chars := utf8Decode bytes
  match parseValue (chars.length + 1) chars with
  | .error e => .error e
  | .ok (.obj fields, _) => .ok fields
  | .ok _ => .error "json: cannot unmarshal value into map"

/-- `strings.Split(s, ".")` over the character list. -/
def splitOnDot : List Char → List (List Char)
  | [] => [[]]
  | c :: rest =>
    let r := splitOnDot rest
    if c = '.' then [] :: r
    else
      match r with
      | [] => [[c]]
      | seg :: segs => (c :: seg) :: segs

/-! ## `jwt/v4` unverified parsing and audience verification -/

/-- `jwt.Parser.ParseUnverified`, restricted to its claim output: split
the token on `.` into exactly three segments, base64url-decode and
JSON-decode the header (strictly, via `json.Unmarshal`, and it must be
an object) and then the claims segment (via a `json.Decoder`, which
ignores trailing bytes).  The signature segment is never examined.
(The library's special error message for tokens prefixed with
"bearer " is folded into the generic decode error; it never yields
claims.) -/
def decodeJWTClaims (rawIDToken : String) : Except String Claims :=
  let parts := splitOnDot rawIDToken.data
  if parts.length ≠ 3 then
    .error "token contains an invalid number of segments"
  else
    match base64urlDecode (parts.getD 0 []) with
    | .error e => .error e
    | .ok headerBytes =>
      match jsonUnmarshalObj headerBytes with
      | .error e => .error e
      | .ok _ =>
        match base64urlDecode (parts.getD 1 []) with
        | .error e => .error e
        | .ok claimBytes => jsonDecodeObj claimBytes

/-- `verifyAud` from `jwt/v4`: an empty list, or a list whose entries
are all empty strings (checked first, even when an entry matched),
passes exactly when the audience is not required; otherwise the result
is whether some entry's bytes equal `cmp`
(`subtle.ConstantTimeCompare`). -/
def verifyAud (aud : List String) (cmp : String) (required : Bool) : Bool :=
  if aud.isEmpty then !required
  else if String.join aud = "" then !required
  else aud.any (fun a => a = cmp)

/-- Collect the entries of a `[]interface{}` audience; any non-string
entry makes `VerifyAudience` return false immediately. -/
def allStrings : List JsonValue → Option (List String)
  | [] => some []
  | .str s :: rest => (allStrings rest).map (fun l => s :: l)
  | _ :: _ => none

/-- `jwt.MapClaims.VerifyAudience`: a string claim is a singleton
audience, an array claim must be all strings, and any other value
(including an absent claim) leaves the audience list empty. -/
def verifyAudience (claims : Claims) (cmp : String) (required : Bool) : Bool :=
  match claimLookup claims "aud" with
  | some (.str s) => verifyAud [s] cmp required
  | some (.arr xs) =>
    match allStrings xs with
    | some aud => verifyAud aud cmp required
    | none => false
  | _ => verifyAud [] cmp required

/-! ## Go runtime result channel -/

/-- Outcome of a Go computation: a value, an error return, or a runtime
panic (a failing non-comma-ok type assertion). -/
inductive GoResult (α : Type) where
  | ok (val : α) : GoResult α
  | err (msg : String) : GoResult α
  | panic (msg : String) : GoResult α
deriving DecidableEq, Repr

/-- Sequencing that propagates both error returns and panics. -/
def GoResult.bind {α β : Type} : GoResult α → (α → GoResult β) → GoResult β
  | .ok a, f => f a
  | .err m, _ => .err m
  | .panic m, _ => .panic m

/-- Whether a `GoResult` is a successful return. -/
def GoResult.isOk {α : Type} : GoResult α → Bool
  | .ok _ => true
  | _ => false

/-- Whether a `GoResult` is an error return (not a panic). -/
def GoResult.isErr {α : Type} : GoResult α → Bool
  | .err _ => true
  | _ => false

/-- The comma-ok string type assertion `v, ok := x.(string)`:
the zero value and `false` when `x` is absent or not a string. -/
def stringAssertOk (v : Option JsonValue) : String × Bool :=
  match v with
  | some (.str s) => (s, true)
  | _ => ("", false)

/-- The non-comma-ok string type assertion `x.(string)`: panics when
`x` is absent or not a string. -/
def typeAssertString (v : Option JsonValue) : GoResult String :=
  match v with
  | some (.str s) => .ok s
  | _ => .panic "interface conversion: interface {} is not string"

/-- Go's `x == true` on an `interface{}`: true exactly when the
dynamic type is `bool` and the value is `true`. -/
def isBoolTrue (v : Option JsonValue) : Bool :=
  match v with
  | some (.bool true) => true
  | _ => false

/-! ## Token, provider and identity records -/

/-- Go `time.Time`, reduced to an absolute timestamp (Unix
nanoseconds); the embedded code only converts it or copies it. -/
structure GoTime where
  unixNano : Int
deriving DecidableEq, Repr

/-- `types.DateTime`, the system's canonical time representation. -/
structure DateTime where
  unixNano : Int
deriving DecidableEq, Repr

/-- The zero `types.DateTime` value. -/
def zeroDateTime : DateTime := ⟨0⟩

/-- Modelled from the spec: `types.ParseDateTime` (tools/types) is not
under src/.  Spec §4.4 step 6 only says the OAuth2 token expiry is
converted to the canonical time representation; conversions may fail,
in which case the result value is the zero `DateTime` alongside the
error.  We model the canonical representation as limited to timestamps
from the epoch up to year 10000. -/
def ParseDateTime (t : GoTime) : DateTime × Option String :=
  if 0 ≤ t.unixNano ∧ t.unixNano < 253402300800000000000 then
    (⟨t.unixNano⟩, none)
  else (zeroDateTime, some "unable to parse the datetime")

/-- `oauth2.Token`: access/refresh credentials, expiry, and the raw
extra-field map of the token endpoint's JSON response. -/
structure OAuth2Token where
  accessToken : String := ""
  refreshToken : String := ""
  expiry : GoTime := ⟨0⟩
  extra : List (String × JsonValue) := []
deriving DecidableEq, Repr

/-- `oauth2.Token.Extra(key)`: lookup in the raw extra-field map,
yielding the `nil` interface when absent. -/
def tokenExtra (t : OAuth2Token) (key : String) : Option JsonValue :=
  claimLookup t.extra key

/-- Modelled from the spec: `BaseProvider` (tools/auth/base.go) is not
under src/; spec §3 (ProviderConfig) lists its configuration fields,
owned by one provider instance.  The cancellation context is omitted —
no network call is embedded. -/
structure BaseProvider where
  clientId : String := ""
  clientSecret : String := ""
  redirectURL : String := ""
  displayName : String := ""
  pkce : Bool := false
  scopes : List String := []
  authURL : String := ""
  tokenURL : String := ""
  userInfoURL : String := ""
deriving DecidableEq, Repr

/-- `Zoho` embeds `BaseProvider` and adds nothing (zoho.go line 23). -/
structure Zoho extends BaseProvider
deriving DecidableEq, Repr

/-- `NameZoho`, the unique name of the Zoho provider (zoho.go line 20). -/
def NameZoho : String := "zoho"

/-- `NewZohoProvider` (zoho.go lines 30–39). -/
def NewZohoProvider : Zoho :=
  { displayName := "Zoho"
    pkce := true
    scopes := ["profile", "email", "openid"]
    authURL := "https://accounts.zoho.com/oauth/v2/auth"
    tokenURL := "https://accounts.zoho.com/oauth/v2/token" }

/-- Modelled from the spec: the `Providers` registry table and
`wrapFactory` (tools/auth/auth.go) are not under src/; spec §4.5 says
it is a name-to-constructor table populated at startup.  zoho.go's
`init` registers `NameZoho ↦ NewZohoProvider`; only that entry comes
from src/. -/
def Providers : List (String × (Unit → Zoho)) :=
  [(NameZoho, fun _ => NewZohoProvider)]

/-- Registry factory lookup. -/
def factoryLookup : List (String × (Unit → Zoho)) → String → Option (Unit → Zoho)
  | [], _ => none
  | (k, f) :: rest, name => if k = name then some f else factoryLookup rest name

/-- Modelled from the spec: registry lookup invokes the registered
constructor, so every lookup yields a freshly constructed instance
(spec §4.5). -/
def registryGet (name : String) : Option Zoho :=
  (factoryLookup Providers name).map (fun factory => factory ())

/-- `AuthUser` (tools/auth/auth.go, field list per spec §3): the
normalized identity record. -/
structure AuthUser where
  id : String
  username : String
  name : String
  email : String
  avatarUrl : String
  rawUser : Claims
  accessToken : String
  refreshToken : String
  expiry : DateTime
deriving DecidableEq, Repr

/-! ## The Zoho provider operations (zoho.go) -/

/-- The fixed allow-list of Zoho regional issuers
(zoho.go lines 89–99, in source order). -/
def zohoValidIssuers : List String :=
  ["https://accounts.zoho.com.au",
   "https://accounts.zohocloud.ca",
   "https://accounts.zoho.eu",
   "https://accounts.zoho.com",
   "https://accounts.zoho.in",
   "https://accounts.zoho.jp",
   "https://accounts.zoho.sa",
   "https://accounts.zoho.uk",
   "https://accounts.zoho.com.cn"]

/-- `Zoho.parseIDToken` (zoho.go lines 79–117): unverified JWT decode,
then issuer allow-list check (`issuer, _ := claims["iss"].(string)`,
so a missing or non-string issuer behaves as `""`), then audience
check against the configured clientId with the required flag set. -/
def parseIDToken (p : Zoho) (rawIDToken : String) : Except String Claims :=
  match decodeJWTClaims rawIDToken with
  | .error e => .error ("failed to parse id_token: " ++ e)
  | .ok claims =>
    let issuer := (stringAssertOk (claimLookup claims "iss")).1
    if zohoValidIssuers.contains issuer then
      if verifyAudience claims p.clientId true then .ok claims
      else .error "invalid id_token audience"
    else .error ("invalid id_token issuer: " ++ issuer)

/-- The `AuthUser` construction block of `Zoho.FetchAuthUser`
(zoho.go lines 58–74).  The composite literal evaluates its field
initializers in source order; each `claims[...].(string)` is a
panicking type assertion.  The `email_verified == true` branch
re-asserts and re-assigns the email claim, and the `ParseDateTime`
error is discarded with a blank identifier. -/
def buildAuthUser (token : OAuth2Token) (claims : Claims) : GoResult AuthUser :=
  (typeAssertString (claimLookup claims "sub")).bind fun sub =>
  (typeAssertString (claimLookup claims "email")).bind fun username =>
  (typeAssertString (claimLookup claims "name")).bind fun name =>
  (typeAssertString (claimLookup claims "email")).bind fun email =>
  (typeAssertString (claimLookup claims "picture")).bind fun picture =>
  let user : AuthUser :=
    { id := sub
      username := username
      name := name
      email := email
      avatarUrl := picture
      rawUser := claims
      accessToken := token.accessToken
      refreshToken := token.refreshToken
      expiry := zeroDateTime }
  (if isBoolTrue (claimLookup claims "email_verified") then
    (typeAssertString (claimLookup claims "email")).bind fun email1 =>
      .ok { user with email := email1 }
  else .ok user).bind fun user1 =>
  .ok { user1 with expiry := (ParseDateTime token.expiry).1 }

/-- `Zoho.FetchAuthUser` (zoho.go lines 45–75): comma-ok extraction of
the `id_token` extra field (absent, non-string or empty is "missing
id_token"), unverified parse and validation, then claim extraction. -/
def FetchAuthUser (p : Zoho) (token : OAuth2Token) : GoResult AuthUser :=
  let assertion := stringAssertOk (tokenExtra token "id_token")
  let rawIDToken := assertion.1
  if assertion.2 = false ∨ rawIDToken = "" then .err "missing id_token"
  else
    match parseIDToken p rawIDToken with
    | .error e => .err e
    | .ok claims => buildAuthUser token claims

/-! ## Observations and concrete fixtures -/

/-- Whether the `aud` claim contains `cmp`: directly as a string claim,
or as an element of an array claim. -/
def audHasString (claims : Claims) (cmp : String) : Bool :=
  match claimLookup claims "aud" with
  | some (.str s) => s = cmp
  | some (.arr xs) =>
    xs.any (fun v => match v with | .str s => s = cmp | _ => false)
  | _ => false

/-- Assemble a JWT string from its three segments. -/
def mkJWT (header payload sig : String) : String :=
  header ++ "." ++ payload ++ "." ++ sig

/-- The id of a successfully fetched user. -/
def authUserIdOf : GoResult AuthUser → Option String
  | .ok u => some u.id
  | _ => none

/-- The email of a successfully fetched user. -/
def authUserEmailOf : GoResult AuthUser → Option String
  | .ok u => some u.email
  | _ => none

/-- The expiry of a successfully fetched user. -/
def authUserExpiryOf : GoResult AuthUser → Option DateTime
  | .ok u => some u.expiry
  | _ => none

/-- A boolean entry of the raw claims copied into a successfully
fetched user. -/
def rawUserBoolOf : GoResult AuthUser → String → Option Bool
  | .ok u, k =>
    match claimLookup u.rawUser k with
    | some (.bool b) => some b
    | _ => none
  | _, _ => none

/-- A Zoho provider configured with clientId "test". -/
def zohoTest : Zoho := { NewZohoProvider with clientId := "test" }

/-- base64url of `{"alg":"none"}`. -/
def jwtHeaderSeg : String := "eyJhbGciOiJub25lIn0"

/-- base64url of `{"iss":"https://accounts.zoho.com","aud":"test",
"sub":"123","email":"a@b.com","name":"A B","picture":"http://x/y.png"}`. -/
def goodPayloadSeg : String :=
  "eyJpc3MiOiJodHRwczovL2FjY291bnRzLnpvaG8uY29tIiwiYXVkIjoidGVzdCIsInN1YiI6IjEyMyIsImVtYWlsIjoiYUBiLmNvbSIsIm5hbWUiOiJBIEIiLCJwaWN0dXJlIjoiaHR0cDovL3gveS5wbmcifQ"

/-- A well-formed unsigned id_token with valid issuer and audience. -/
def goodIDToken : String := mkJWT jwtHeaderSeg goodPayloadSeg "x"

/-- The claim set carried by `goodIDToken`. -/
def goodClaims : Claims :=
  [("iss", .str "https://accounts.zoho.com"), ("aud", .str "test"),
   ("sub", .str "123"), ("email", .str "a@b.com"), ("name", .str "A B"),
   ("picture", .str "http://x/y.png")]

/-- An OAuth2 token carrying `goodIDToken`. -/
def goodToken : OAuth2Token :=
  { accessToken := "at", refreshToken := "rt", expiry := ⟨5⟩,
    extra := [("id_token", .str goodIDToken)] }

/-- The `AuthUser` produced from `goodToken`. -/
def goodUser : AuthUser :=
  { id := "123", username := "a@b.com", name := "A B", email := "a@b.com",
    avatarUrl := "http://x/y.png", rawUser := goodClaims,
    accessToken := "at", refreshToken := "rt", expiry := ⟨5⟩ }

/-- base64url of the good payload with
`"iss":"https://accounts.zoho.de"` (not in the allow-list). -/
def dePayloadSeg : String :=
  "eyJpc3MiOiJodHRwczovL2FjY291bnRzLnpvaG8uZGUiLCJhdWQiOiJ0ZXN0Iiwic3ViIjoiMTIzIiwiZW1haWwiOiJhQGIuY29tIiwibmFtZSI6IkEgQiIsInBpY3R1cmUiOiJodHRwOi8veC95LnBuZyJ9"

/-- An unsigned id_token whose issuer is `https://accounts.zoho.de`. -/
def deIDToken : String := mkJWT jwtHeaderSeg dePayloadSeg "x"

/-- The claim set carried by `deIDToken`. -/
def deClaims : Claims :=
  [("iss", .str "https://accounts.zoho.de"), ("aud", .str "test"),
   ("sub", .str "123"), ("email", .str "a@b.com"), ("name", .str "A B"),
   ("picture", .str "http://x/y.png")]

/-- An OAuth2 token carrying `deIDToken`. -/
def deToken : OAuth2Token :=
  { accessToken := "at", refreshToken := "rt", expiry := ⟨5⟩,
    extra := [("id_token", .str deIDToken)] }

/-- base64url of the good payload with `"aud":"other"`. -/
def audBadPayloadSeg : String :=
  "eyJpc3MiOiJodHRwczovL2FjY291bnRzLnpvaG8uY29tIiwiYXVkIjoib3RoZXIiLCJzdWIiOiIxMjMiLCJlbWFpbCI6ImFAYi5jb20iLCJuYW1lIjoiQSBCIiwicGljdHVyZSI6Imh0dHA6Ly94L3kucG5nIn0"

/-- An unsigned id_token with valid issuer but audience "other". -/
def audBadIDToken : String := mkJWT jwtHeaderSeg audBadPayloadSeg "x"

/-- The claim set carried by `audBadIDToken`. -/
def audBadClaims : Claims :=
  [("iss", .str "https://accounts.zoho.com"), ("aud", .str "other"),
   ("sub", .str "123"), ("email", .str "a@b.com"), ("name", .str "A B"),
   ("picture", .str "http://x/y.png")]

/-- An OAuth2 token carrying `audBadIDToken`. -/
def audBadToken : OAuth2Token :=
  { accessToken := "at", refreshToken := "rt", expiry := ⟨5⟩,
    extra := [("id_token", .str audBadIDToken)] }

/-- base64url of the good payload with empty `sub` and empty `email`. -/
def emptySubPayloadSeg : String :=
  "eyJpc3MiOiJodHRwczovL2FjY291bnRzLnpvaG8uY29tIiwiYXVkIjoidGVzdCIsInN1YiI6IiIsImVtYWlsIjoiIiwibmFtZSI6IkEgQiIsInBpY3R1cmUiOiJodHRwOi8veC95LnBuZyJ9"

/-- An id_token that validates but carries empty `sub` and `email`. -/
def emptySubIDToken : String := mkJWT jwtHeaderSeg emptySubPayloadSeg "x"

/-- The claim set carried by `emptySubIDToken`. -/
def emptySubClaims : Claims :=
  [("iss", .str "https://accounts.zoho.com"), ("aud", .str "test"),
   ("sub", .str ""), ("email", .str ""), ("name", .str "A B"),
   ("picture", .str "http://x/y.png")]

/-- An OAuth2 token carrying `emptySubIDToken`. -/
def emptySubToken : OAuth2Token :=
  { accessToken := "at", refreshToken := "rt", expiry := ⟨5⟩,
    extra := [("id_token", .str emptySubIDToken)] }

/-- The `AuthUser` produced from `emptySubToken`. -/
def emptySubUser : AuthUser :=
  { id := "", username := "", name := "A B", email := "",
    avatarUrl := "http://x/y.png", rawUser := emptySubClaims,
    accessToken := "at", refreshToken := "rt", expiry := ⟨5⟩ }

/-- base64url of the good payload without a `sub` member. -/
def noSubPayloadSeg : String :=
  "eyJpc3MiOiJodHRwczovL2FjY291bnRzLnpvaG8uY29tIiwiYXVkIjoidGVzdCIsImVtYWlsIjoiYUBiLmNvbSIsIm5hbWUiOiJBIEIiLCJwaWN0dXJlIjoiaHR0cDovL3gveS5wbmcifQ"

/-- An id_token that validates but has no `sub` claim. -/
def noSubIDToken : String := mkJWT jwtHeaderSeg noSubPayloadSeg "x"

/-- The claim set carried by `noSubIDToken`. -/
def noSubClaims : Claims :=
  [("iss", .str "https://accounts.zoho.com"), ("aud", .str "test"),
   ("email", .str "a@b.com"), ("name", .str "A B"),
   ("picture", .str "http://x/y.png")]

/-- An OAuth2 token carrying `noSubIDToken`. -/
def noSubToken : OAuth2Token :=
  { accessToken := "at", refreshToken := "rt", expiry := ⟨5⟩,
    extra := [("id_token", .str noSubIDToken)] }

/-- The good claim set without its `email_verified` entry. -/
def evBaseClaims : Claims := goodClaims

/-- base64url of the good payload plus `"email_verified":false`. -/
def evFalsePayloadSeg : String :=
  "eyJpc3MiOiJodHRwczovL2FjY291bnRzLnpvaG8uY29tIiwiYXVkIjoidGVzdCIsInN1YiI6IjEyMyIsImVtYWlsIjoiYUBiLmNvbSIsIm5hbWUiOiJBIEIiLCJwaWN0dXJlIjoiaHR0cDovL3gveS5wbmciLCJlbWFpbF92ZXJpZmllZCI6ZmFsc2V9"

/-- base64url of the good payload plus `"email_verified":true`. -/
def evTruePayloadSeg : String :=
  "eyJpc3MiOiJodHRwczovL2FjY291bnRzLnpvaG8uY29tIiwiYXVkIjoidGVzdCIsInN1YiI6IjEyMyIsImVtYWlsIjoiYUBiLmNvbSIsIm5hbWUiOiJBIEIiLCJwaWN0dXJlIjoiaHR0cDovL3gveS5wbmciLCJlbWFpbF92ZXJpZmllZCI6dHJ1ZX0"

/-- id_token with `email_verified:false`. -/
def evFalseIDToken : String := mkJWT jwtHeaderSeg evFalsePayloadSeg "x"

/-- id_token with `email_verified:true`. -/
def evTrueIDToken : String := mkJWT jwtHeaderSeg evTruePayloadSeg "x"

/-- Claim set of `evFalseIDToken`. -/
def evFalseClaims : Claims := evBaseClaims ++ [("email_verified", .bool false)]

/-- Claim set of `evTrueIDToken`. -/
def evTrueClaims : Claims := evBaseClaims ++ [("email_verified", .bool true)]

/-- Token carrying `evFalseIDToken`. -/
def evFalseToken : OAuth2Token :=
  { accessToken := "at", refreshToken := "rt", expiry := ⟨5⟩,
    extra := [("id_token", .str evFalseIDToken)] }

/-- Token carrying `evTrueIDToken`. -/
def evTrueToken : OAuth2Token :=
  { accessToken := "at", refreshToken := "rt", expiry := ⟨5⟩,
    extra := [("id_token", .str evTrueIDToken)] }

/-- `goodToken` with an expiry outside the representable range of the
modelled canonical time representation. -/
def badExpiryToken : OAuth2Token := { goodToken with expiry := ⟨-1⟩ }

/-- An OAuth2 token with no extra fields at all. -/
def emptyExtraToken : OAuth2Token :=
  { accessToken := "at", refreshToken := "rt", expiry := ⟨5⟩, extra := [] }

/-! ## Supporting lemmas -/

theorem splitOnDot_ne_nil : ∀ l : List Char, splitOnDot l ≠ []
  | [] => by simp [splitOnDot]
  | c :: rest => by
    simp only [splitOnDot]
    by_cases hc : c = '.'
    · simp [hc]
    · simp only [hc, if_false]
      cases h : splitOnDot rest <;> simp

theorem splitOnDot_append (x y : List Char) :
    splitOnDot (x ++ '.' :: y) = splitOnDot x ++ splitOnDot y := by
  induction x with
  | nil => simp [splitOnDot]
  | cons c rest ih =>
    simp only [List.cons_append, splitOnDot]
    by_cases hc : c = '.'
    · simp [hc, ih]
    · simp only [hc, if_false]
      obtain ⟨a, as, ha⟩ := List.exists_cons_of_ne_nil (splitOnDot_ne_nil rest)
      simp only [List.append_eq]
      rw [ih, ha]
      simp

theorem splitOnDot_no_dot (l : List Char) (h : '.' ∉ l) : splitOnDot l = [l] := by
  induction l with
  | nil => simp [splitOnDot]
  | cons c rest ih =>
    simp only [List.mem_cons, not_or] at h
    simp [splitOnDot, Ne.symm h.1, ih h.2]

theorem typeAssertString_ok_iff (v : Option JsonValue) (s : String) :
    typeAssertString v = .ok s ↔ v = some (.str s) := by
  cases v with
  | none => simp [typeAssertString]
  | some j => cases j <;> simp [typeAssertString]

/-- When all four identity claims are strings, the construction block
succeeds with exactly this record, whatever `email_verified` holds. -/
theorem buildAuthUser_ok (t : OAuth2Token) (claims : Claims)
    (sub email name pic : String)
    (hs : claimLookup claims "sub" = some (.str sub))
    (he : claimLookup claims "email" = some (.str email))
    (hn : claimLookup claims "name" = some (.str name))
    (hp : claimLookup claims "picture" = some (.str pic)) :
    buildAuthUser t claims =
      .ok { id := sub, username := email, name := name, email := email,
            avatarUrl := pic, rawUser := claims,
            accessToken := t.accessToken, refreshToken := t.refreshToken,
            expiry := (ParseDateTime t.expiry).1 } := by
  cases hev : isBoolTrue (claimLookup claims "email_verified") <;>
    simp [buildAuthUser, hs, he, hn, hp, hev, typeAssertString, GoResult.bind]

/-- The panicking assertion on anything that is not a string. -/
theorem typeAssertString_panics (v : Option JsonValue)
    (hv : ∀ s, v ≠ some (.str s)) :
    typeAssertString v = .panic "interface conversion: interface {} is not string" := by
  cases v with
  | none => rfl
  | some j => cases j <;> first | rfl | exact absurd rfl (hv _)

/-- If one of the four identity claims is absent or not a string, the
construction block panics. -/
theorem buildAuthUser_panics (t : OAuth2Token) (claims : Claims)
    (h : (∀ s, claimLookup claims "sub" ≠ some (.str s)) ∨
         (∀ s, claimLookup claims "email" ≠ some (.str s)) ∨
         (∀ s, claimLookup claims "name" ≠ some (.str s)) ∨
         (∀ s, claimLookup claims "picture" ≠ some (.str s))) :
    buildAuthUser t claims =
      .panic "interface conversion: interface {} is not string" := by
  by_cases hs : ∀ s, claimLookup claims "sub" ≠ some (.str s)
  · simp [buildAuthUser, typeAssertString_panics _ hs, GoResult.bind]
  · push_neg at hs; obtain ⟨sub, hsub⟩ := hs
    by_cases he : ∀ s, claimLookup claims "email" ≠ some (.str s)
    · simp [buildAuthUser, hsub, typeAssertString,
            typeAssertString_panics _ he, GoResult.bind]
    · push_neg at he; obtain ⟨em, hem⟩ := he
      by_cases hn : ∀ s, claimLookup claims "name" ≠ some (.str s)
      · simp [buildAuthUser, hsub, hem, typeAssertString,
              typeAssertString_panics _ hn, GoResult.bind]
      · push_neg at hn; obtain ⟨nm, hnm⟩ := hn
        by_cases hp : ∀ s, claimLookup claims "picture" ≠ some (.str s)
        · simp [buildAuthUser, hsub, hem, hnm, typeAssertString,
                typeAssertString_panics _ hp, GoResult.bind]
        · push_neg at hp; obtain ⟨pc, hpc⟩ := hp
          rcases h with h | h | h | h
          · exact absurd hsub (h sub)
          · exact absurd hem (h em)
          · exact absurd hnm (h nm)
          · exact absurd hpc (h pc)

/-- Inversion: a successful construction forces all four identity
claims to be the strings stored in the returned record. -/
theorem buildAuthUser_ok_inv (t : OAuth2Token) (claims : Claims) (u : AuthUser)
    (h : buildAuthUser t claims = .ok u) :
    claimLookup claims "sub" = some (.str u.id) ∧
    claimLookup claims "email" = some (.str u.username) ∧
    claimLookup claims "name" = some (.str u.name) ∧
    claimLookup claims "email" = some (.str u.email) ∧
    claimLookup claims "picture" = some (.str u.avatarUrl) ∧
    u.rawUser = claims ∧
    u.accessToken = t.accessToken ∧ u.refreshToken = t.refreshToken ∧
    u.expiry = (ParseDateTime t.expiry).1 := by
  by_cases hs : ∀ s, claimLookup claims "sub" ≠ some (.str s)
  · rw [buildAuthUser_panics t claims (Or.inl hs)] at h; exact absurd h (by simp)
  · push_neg at hs; obtain ⟨sub, hsub⟩ := hs
    by_cases he : ∀ s, claimLookup claims "email" ≠ some (.str s)
    · rw [buildAuthUser_panics t claims (Or.inr (Or.inl he))] at h
      exact absurd h (by simp)
    · push_neg at he; obtain ⟨em, hem⟩ := he
      by_cases hn : ∀ s, claimLookup claims "name" ≠ some (.str s)
      · rw [buildAuthUser_panics t claims (Or.inr (Or.inr (Or.inl hn)))] at h
        exact absurd h (by simp)
      · push_neg at hn; obtain ⟨nm, hnm⟩ := hn
        by_cases hp : ∀ s, claimLookup claims "picture" ≠ some (.str s)
        · rw [buildAuthUser_panics t claims (Or.inr (Or.inr (Or.inr hp)))] at h
          exact absurd h (by simp)
        · push_neg at hp; obtain ⟨pc, hpc⟩ := hp
          rw [buildAuthUser_ok t claims sub em nm pc hsub hem hnm hpc] at h
          injection h with h1
          subst h1
          simp [hsub, hem, hnm, hpc]

/-- Reduction of `FetchAuthUser` to the construction block once the
token carries a non-empty `id_token` that parses and validates. -/
theorem FetchAuthUser_eq_build (p : Zoho) (t : OAuth2Token)
    (raw : String) (claims : Claims)
    (hext : tokenExtra t "id_token" = some (.str raw)) (hraw : raw ≠ "")
    (hparse : parseIDToken p raw = .ok claims) :
    FetchAuthUser p t = buildAuthUser t claims := by
  simp [FetchAuthUser, hext, stringAssertOk, hraw, hparse]

/-- The empty string is not a JWT. -/
theorem parseIDToken_empty (p : Zoho) :
    parseIDToken p "" =
      .error "failed to parse id_token: token contains an invalid number of segments" := rfl

/-- A successfully parsed id_token is non-empty. -/
theorem parseIDToken_ok_ne_empty (p : Zoho) (raw : String) (claims : Claims)
    (h : parseIDToken p raw = .ok claims) : raw ≠ "" := by
  intro he
  subst he
  rw [parseIDToken_empty] at h
  exact absurd h (by simp)

/-- `parseIDToken` succeeds exactly on decodable tokens whose issuer is
allow-listed and whose audience verifies, and then returns the decoded
claims. -/
theorem parseIDToken_ok_iff (p : Zoho) (raw : String) (claims : Claims) :
    parseIDToken p raw = .ok claims ↔
      decodeJWTClaims raw = .ok claims ∧
      (stringAssertOk (claimLookup claims "iss")).1 ∈ zohoValidIssuers ∧
      verifyAudience claims p.clientId true = true := by
  constructor
  · intro h
    rcases hdec : decodeJWTClaims raw with e | cl
    · rw [parseIDToken, hdec] at h
      exact absurd h (by simp)
    · rw [parseIDToken, hdec] at h
      simp only [] at h
      split_ifs at h with hiss haud
      · injection h with h1
        subst h1
        exact ⟨rfl, by simpa using hiss, haud⟩
  · rintro ⟨hdec, hiss, haud⟩
    rw [parseIDToken, hdec]
    simp [hiss, haud]

/-- A required-audience check only passes when `cmp` is literally among
the audience entries. -/
theorem verifyAud_true_mem (aud : List String) (cmp : String)
    (h : verifyAud aud cmp true = true) : cmp ∈ aud := by
  unfold verifyAud at h
  by_cases h1 : aud.isEmpty
  · simp [h1] at h
  · by_cases h2 : String.join aud = ""
    · simp [h1, h2] at h
    · simp only [h1, h2, if_false, if_neg] at h
      obtain ⟨a, ha, he⟩ := List.any_eq_true.mp h
      simp only [decide_eq_true_eq] at he
      exact he ▸ ha

/-- Entries collected by `allStrings` come from string elements of the
original array. -/
theorem allStrings_mem (xs : List JsonValue) (auds : List String)
    (h : allStrings xs = some auds) (a : String) (ha : a ∈ auds) :
    JsonValue.str a ∈ xs := by
  induction xs generalizing auds with
  | nil =>
    simp only [allStrings, Option.some.injEq] at h
    subst h
    simp at ha
  | cons x rest ih =>
    cases x with
    | str s =>
      simp only [allStrings, Option.map_eq_some'] at h
      obtain ⟨l, hl, hauds⟩ := h
      subst hauds
      rcases List.mem_cons.mp ha with h1 | h1
      · subst h1; exact List.mem_cons_self _ _
      · exact List.mem_cons_of_mem _ (ih l hl h1)
    | null => simp [allStrings] at h
    | bool b => simp [allStrings] at h
    | num r => simp [allStrings] at h
    | arr l => simp [allStrings] at h
    | obj f => simp [allStrings] at h

/-- A passing required-audience verification means the `aud` claim
contains the compared clientId. -/
theorem verifyAudience_true_audHasString (claims : Claims) (cmp : String)
    (h : verifyAudience claims cmp true = true) :
    audHasString claims cmp = true := by
  rcases hv : claimLookup claims "aud" with _ | j
  · simp only [verifyAudience, hv] at h
    simp [verifyAud] at h
  · cases j with
    | str s =>
      simp only [verifyAudience, hv] at h
      have hs := verifyAud_true_mem _ _ h
      simp only [List.mem_singleton] at hs
      simp [audHasString, hv, hs]
    | arr xs =>
      simp only [verifyAudience, hv] at h
      split at h
      · next auds hall =>
          have hmem := verifyAud_true_mem _ _ h
          have hx := allStrings_mem xs auds hall cmp hmem
          simp only [audHasString, hv, List.any_eq_true]
          exact ⟨.str cmp, hx, by simp⟩
      · exact absurd h (by simp)
    | null => simp only [verifyAudience, hv] at h; simp [verifyAud] at h
    | bool b => simp only [verifyAudience, hv] at h; simp [verifyAud] at h
    | num r => simp only [verifyAudience, hv] at h; simp [verifyAud] at h
    | obj f => simp only [verifyAudience, hv] at h; simp [verifyAud] at h

/-- A `GoResult` is ok exactly when it is an `ok` value. -/
theorem isOk_iff {α : Type} (r : GoResult α) :
    r.isOk = true ↔ ∃ v, r = .ok v := by
  cases r <;> simp [GoResult.isOk]

/-- Inversion of a successful `FetchAuthUser` run: the token carried a
non-empty `id_token` that parsed, validated, and built the user. -/
theorem FetchAuthUser_ok_inv (p : Zoho) (t : OAuth2Token) (u : AuthUser)
    (h : FetchAuthUser p t = .ok u) :
    ∃ raw claims,
      tokenExtra t "id_token" = some (.str raw) ∧ raw ≠ "" ∧
      parseIDToken p raw = .ok claims ∧ buildAuthUser t claims = .ok u := by
  rcases hv : tokenExtra t "id_token" with _ | j
  · rw [FetchAuthUser, hv] at h
    exact absurd h (by simp [stringAssertOk])
  · cases j with
    | str s =>
      by_cases hs : s = ""
      · rw [FetchAuthUser, hv] at h
        subst hs
        exact absurd h (by simp [stringAssertOk])
      · rcases hp : parseIDToken p s with e | cl
        · rw [FetchAuthUser, hv] at h
          simp [stringAssertOk, hs, hp] at h
        · rw [FetchAuthUser, hv] at h
          simp [stringAssertOk, hs, hp] at h
          exact ⟨s, cl, rfl, hs, hp, h⟩
    | null => rw [FetchAuthUser, hv] at h; exact absurd h (by simp [stringAssertOk])
    | bool b => rw [FetchAuthUser, hv] at h; exact absurd h (by simp [stringAssertOk])
    | num r => rw [FetchAuthUser, hv] at h; exact absurd h (by simp [stringAssertOk])
    | arr l => rw [FetchAuthUser, hv] at h; exact absurd h (by simp [stringAssertOk])
    | obj f => rw [FetchAuthUser, hv] at h; exact absurd h (by simp [stringAssertOk])

/-- The construction block reads the token only through its access
token, refresh token and expiry. -/
theorem buildAuthUser_token_congr (t1 t2 : OAuth2Token)
    (hacc : t1.accessToken = t2.accessToken)
    (href : t1.refreshToken = t2.refreshToken)
    (hexp : t1.expiry = t2.expiry) (claims : Claims) :
    buildAuthUser t1 claims = buildAuthUser t2 claims := by
  unfold buildAuthUser
  rw [hacc, href, hexp]

/-- Lookups other than the final appended key are insensitive to the
appended value. -/
theorem claimLookup_append_last (base : Claims) (key k : String)
    (v w : JsonValue) (hk : k ≠ key) :
    claimLookup (base ++ [(key, v)]) k = claimLookup (base ++ [(key, w)]) k := by
  induction base with
  | nil => simp [claimLookup, Ne.symm hk]
  | cons hd tl ih =>
    rcases hd with ⟨k0, v0⟩
    by_cases h0 : k0 = k
    · simp [claimLookup, h0]
    · simp [claimLookup, h0, ih]

/-- The segment split of an assembled JWT whose signature segment has
no dot. -/
theorem splitOnDot_mkJWT (h p s : String) (hs : '.' ∉ s.data) :
    splitOnDot (mkJWT h p s).data =
      splitOnDot h.data ++ splitOnDot p.data ++ [s.data] := by
  have hdot : ("." : String).data = ['.'] := rfl
  have hdata : (mkJWT h p s).data = h.data ++ '.' :: (p.data ++ '.' :: s.data) := by
    simp [mkJWT, String.data_append, hdot]
  rw [hdata, splitOnDot_append, splitOnDot_append, splitOnDot_no_dot s.data hs,
     List.append_assoc]

/-- An assembled JWT is never the empty string. -/
theorem mkJWT_ne_empty (h p s : String) : mkJWT h p s ≠ "" := by
  intro he
  have hd := congrArg String.data he
  have hdot : ("." : String).data = ['.'] := rfl
  simp [mkJWT, String.data_append, hdot] at hd

/-- Unverified decoding never reads the signature segment: two JWTs
sharing header and payload segments decode identically. -/
theorem decodeJWTClaims_sig_indep (h p s1 s2 : String)
    (hs1 : '.' ∉ s1.data) (hs2 : '.' ∉ s2.data) :
    decodeJWTClaims (mkJWT h p s1) = decodeJWTClaims (mkJWT h p s2) := by
  unfold decodeJWTClaims
  rw [splitOnDot_mkJWT h p s1 hs1, splitOnDot_mkJWT h p s2 hs2]
  obtain ⟨a, A, ha⟩ := List.exists_cons_of_ne_nil (splitOnDot_ne_nil h.data)
  obtain ⟨b, B, hb⟩ := List.exists_cons_of_ne_nil (splitOnDot_ne_nil p.data)
  rw [ha, hb]
  cases A with
  | cons a2 A2 =>
    have hlen : ∀ x : List Char,
        ((a :: a2 :: A2 : List (List Char)) ++ (b :: B) ++ [x]).length ≠ 3 := by
      intro x; simp; omega
    simp [hlen]
  | nil =>
    cases B with
    | cons b2 B2 =>
      have hlen : ∀ x : List Char,
          (([a] : List (List Char)) ++ (b :: b2 :: B2) ++ [x]).length ≠ 3 := by
        intro x; simp
      simp [hlen]
    | nil => simp

/-! ## Claim theorems -/

/-- C1: for every OAuth2 token carrying an id_token whose claims pass
issuer and audience validation and contain sub="123", email="a@b.com",
name="A B", picture="http://x/y.png" (all strings), `FetchAuthUser`
returns the AuthUser with id "123", username "a@b.com" (reusing the
email claim, since Zoho provides no username claim), name "A B", email
"a@b.com", and avatarUrl "http://x/y.png". -/
theorem zoho_fetchAuthUser_valid_claims (p : Zoho) (t : OAuth2Token)
    (raw : String) (claims : Claims)
    (hext : tokenExtra t "id_token" = some (.str raw))
    (hparse : parseIDToken p raw = .ok claims)
    (hsub : claimLookup claims "sub" = some (.str "123"))
    (hemail : claimLookup claims "email" = some (.str "a@b.com"))
    (hname : claimLookup claims "name" = some (.str "A B"))
    (hpic : claimLookup claims "picture" = some (.str "http://x/y.png")) :
    FetchAuthUser p t =
      .ok { id := "123", username := "a@b.com", name := "A B",
            email := "a@b.com", avatarUrl := "http://x/y.png",
            rawUser := claims, accessToken := t.accessToken,
            refreshToken := t.refreshToken,
            expiry := (ParseDateTime t.expiry).1 } := by
  rw [FetchAuthUser_eq_build p t raw claims hext
       (parseIDToken_ok_ne_empty p raw claims hparse) hparse]
  exact buildAuthUser_ok t claims _ _ _ _ hsub hemail hname hpic

set_option maxRecDepth 1000000 in
/-- Witness for C1: a concrete valid token produces the specified
normalized user. -/
theorem zoho_fetchAuthUser_valid_claims_witness :
    FetchAuthUser zohoTest goodToken = .ok goodUser :=
  zoho_fetchAuthUser_valid_claims zohoTest goodToken goodIDToken goodClaims
    rfl rfl rfl rfl rfl rfl

/-- C2: whenever the decoded claims carry no string `iss` claim that is
in the fixed allow-list of Zoho regional issuers — the claim being
absent, non-string, or an unlisted string alike — `parseIDToken`
returns the issuer validation error and no claims, and `FetchAuthUser`
on any token carrying that id_token fails. -/
theorem zoho_parseIDToken_invalid_issuer (p : Zoho) (raw : String)
    (claims : Claims)
    (hdec : decodeJWTClaims raw = .ok claims)
    (hiss : ∀ s, claimLookup claims "iss" = some (.str s) → s ∉ zohoValidIssuers) :
    parseIDToken p raw =
      .error ("invalid id_token issuer: " ++
              (stringAssertOk (claimLookup claims "iss")).1) ∧
    ∀ t : OAuth2Token, tokenExtra t "id_token" = some (.str raw) →
      (FetchAuthUser p t).isErr = true := by
  have hcont : (stringAssertOk (claimLookup claims "iss")).1 ∉ zohoValidIssuers := by
    rcases hv : claimLookup claims "iss" with _ | j
    · simp only [stringAssertOk]
      decide
    · cases j with
      | str s => simpa [stringAssertOk] using hiss s hv
      | null => simp only [stringAssertOk]; decide
      | bool b => simp only [stringAssertOk]; decide
      | num r => simp only [stringAssertOk]; decide
      | arr l => simp only [stringAssertOk]; decide
      | obj f => simp only [stringAssertOk]; decide
  have hperr : parseIDToken p raw =
      .error ("invalid id_token issuer: " ++
              (stringAssertOk (claimLookup claims "iss")).1) := by
    rw [parseIDToken, hdec]
    simp [hcont]
  refine ⟨hperr, fun t hext => ?_⟩
  by_cases hraw : raw = ""
  · subst hraw
    simp [FetchAuthUser, hext, stringAssertOk, GoResult.isErr]
  · simp [FetchAuthUser, hext, stringAssertOk, hraw, hperr, GoResult.isErr]

set_option maxRecDepth 1000000 in
/-- Witness for C2: an unsigned JWT with issuer
`https://accounts.zoho.de` is rejected. -/
theorem zoho_parseIDToken_invalid_issuer_witness :
    parseIDToken zohoTest deIDToken =
      .error "invalid id_token issuer: https://accounts.zoho.de" ∧
    (FetchAuthUser zohoTest deToken).isErr = true := by
  have h := zoho_parseIDToken_invalid_issuer zohoTest deIDToken deClaims rfl
    (fun s hs => by
      rw [show claimLookup deClaims "iss" =
            some (.str "https://accounts.zoho.de") from rfl] at hs
      injection hs with h1
      injection h1 with h2
      subst h2
      decide)
  exact ⟨h.1, h.2 deToken rfl⟩

/-- C3: once the issuer check has passed, a failing audience check —
in particular an absent `aud` claim, since the required flag is set —
makes `parseIDToken` return the "invalid id_token audience" error, and
hence `FetchAuthUser` on any token carrying that id_token fails with
the same error; parsing succeeds exactly when the audience verifies,
and the required verification passes only when the `aud` claim
contains the configured clientId. -/
theorem zoho_parseIDToken_audience (p : Zoho) (raw : String) (claims : Claims)
    (hdec : decodeJWTClaims raw = .ok claims)
    (hiss : (stringAssertOk (claimLookup claims "iss")).1 ∈ zohoValidIssuers) :
    (verifyAudience claims p.clientId true = false →
        parseIDToken p raw = .error "invalid id_token audience" ∧
        ∀ t : OAuth2Token, tokenExtra t "id_token" = some (.str raw) →
          FetchAuthUser p t = .err "invalid id_token audience") ∧
    (claimLookup claims "aud" = none →
        parseIDToken p raw = .error "invalid id_token audience" ∧
        ∀ t : OAuth2Token, tokenExtra t "id_token" = some (.str raw) →
          FetchAuthUser p t = .err "invalid id_token audience") ∧
    (parseIDToken p raw = .ok claims ↔
        verifyAudience claims p.clientId true = true) ∧
    (verifyAudience claims p.clientId true = true →
        audHasString claims p.clientId = true) := by
  have hraw : raw ≠ "" := by
    intro he
    subst he
    rw [show decodeJWTClaims "" =
          .error "token contains an invalid number of segments" from rfl] at hdec
    exact absurd hdec (by simp)
  have main : verifyAudience claims p.clientId true = false →
      parseIDToken p raw = .error "invalid id_token audience" ∧
      ∀ t : OAuth2Token, tokenExtra t "id_token" = some (.str raw) →
        FetchAuthUser p t = .err "invalid id_token audience" := by
    intro haud
    have hperr : parseIDToken p raw = .error "invalid id_token audience" := by
      rw [parseIDToken, hdec]
      simp [hiss, haud]
    refine ⟨hperr, fun t hext => ?_⟩
    simp [FetchAuthUser, hext, stringAssertOk, hraw, hperr]
  refine ⟨main, ?_, ?_, verifyAudience_true_audHasString claims p.clientId⟩
  · intro hnone
    exact main (by simp [verifyAudience, hnone, verifyAud])
  · rw [parseIDToken_ok_iff]
    exact ⟨fun ⟨_, _, haud⟩ => haud, fun haud => ⟨hdec, hiss, haud⟩⟩

set_option maxRecDepth 1000000 in
/-- Witness for C3: with clientId "test", a token whose `aud` is
"other" is rejected with the audience error by `parseIDToken`, and
`FetchAuthUser` on a token carrying it fails with that same error. -/
theorem zoho_parseIDToken_audience_witness :
    parseIDToken zohoTest audBadIDToken = .error "invalid id_token audience" ∧
    FetchAuthUser zohoTest audBadToken = .err "invalid id_token audience" ∧
    claimLookup audBadClaims "aud" ≠ none := by
  have h := zoho_parseIDToken_audience zohoTest audBadIDToken audBadClaims rfl
    (by decide)
  have ha := h.1 (by decide)
  exact ⟨ha.1, ha.2 audBadToken rfl, by decide⟩

/-- C4: a token whose `id_token` extra field is absent, not a string,
or the empty string makes `FetchAuthUser` fail with the "missing
id_token" error, returning no AuthUser. -/
theorem zoho_fetchAuthUser_missing_id_token (p : Zoho) (t : OAuth2Token)
    (h : ∀ s, tokenExtra t "id_token" = some (.str s) → s = "") :
    FetchAuthUser p t = .err "missing id_token" := by
  rcases hv : tokenExtra t "id_token" with _ | j
  · simp [FetchAuthUser, hv, stringAssertOk]
  · cases j with
    | str s =>
      have hs := h s hv
      simp [FetchAuthUser, hv, stringAssertOk, hs]
    | null => simp [FetchAuthUser, hv, stringAssertOk]
    | bool b => simp [FetchAuthUser, hv, stringAssertOk]
    | num r => simp [FetchAuthUser, hv, stringAssertOk]
    | arr l => simp [FetchAuthUser, hv, stringAssertOk]
    | obj f => simp [FetchAuthUser, hv, stringAssertOk]

/-- Witness for C4: a token without extra fields fails with "missing
id_token". -/
theorem zoho_fetchAuthUser_missing_id_token_witness :
    FetchAuthUser zohoTest emptyExtraToken = .err "missing id_token" :=
  zoho_fetchAuthUser_missing_id_token zohoTest emptyExtraToken
    (fun s hs => by simp [tokenExtra, claimLookup] at hs)

set_option maxRecDepth 1000000 in
/-- C5 counterexample: a token that passes all validation but carries
empty `sub` and `email` claim strings yields a successful AuthUser
whose id and email are both empty. -/
theorem zoho_success_empty_id_email_counterexample :
    authUserIdOf (FetchAuthUser zohoTest emptySubToken) = some "" ∧
    authUserEmailOf (FetchAuthUser zohoTest emptySubToken) = some "" :=
  ⟨rfl, rfl⟩

/-- C5 (amended): on every successful `FetchAuthUser` run the returned
id and email equal the `sub` and `email` claim strings verbatim; the
code never checks them for emptiness, so they are non-empty only when
the provider sent non-empty strings. -/
theorem zoho_fetchAuthUser_id_email_from_claims (p : Zoho)
    (t : OAuth2Token) (u : AuthUser) (h : FetchAuthUser p t = .ok u) :
    claimLookup u.rawUser "sub" = some (.str u.id) ∧
    claimLookup u.rawUser "email" = some (.str u.email) := by
  obtain ⟨raw, claims, hext, hraw, hparse, hbuild⟩ := FetchAuthUser_ok_inv p t u h
  obtain ⟨h1, _, _, h4, _, h6, _, _, _⟩ := buildAuthUser_ok_inv t claims u hbuild
  rw [h6]
  exact ⟨h1, h4⟩

set_option maxRecDepth 1000000 in
/-- Witness for amended C5 at the empty-sub token. -/
theorem zoho_fetchAuthUser_id_email_from_claims_witness :
    claimLookup emptySubUser.rawUser "sub" = some (.str emptySubUser.id) ∧
    claimLookup emptySubUser.rawUser "email" = some (.str emptySubUser.email) :=
  zoho_fetchAuthUser_id_email_from_claims zohoTest emptySubToken emptySubUser rfl

set_option maxRecDepth 1000000 in
/-- C6 counterexample: a token that passes parse, issuer and audience
validation but lacks a `sub` claim makes `FetchAuthUser` abort with a
runtime type-assertion panic, not a typed error return. -/
theorem zoho_missing_sub_panics_counterexample :
    FetchAuthUser zohoTest noSubToken =
      .panic "interface conversion: interface {} is not string" := rfl

/-- C6 (amended): under the parse/issuer/audience preconditions, an
absent or non-string `sub`, `email`, `name` or `picture` claim makes
the claim-extraction step abort with an unchecked type-assertion
panic — the condition is not surfaced as a typed error. -/
theorem zoho_fetchAuthUser_nonstring_claim_panics (p : Zoho)
    (t : OAuth2Token) (raw : String) (claims : Claims)
    (hext : tokenExtra t "id_token" = some (.str raw))
    (hparse : parseIDToken p raw = .ok claims)
    (hbad : (∀ s, claimLookup claims "sub" ≠ some (.str s)) ∨
            (∀ s, claimLookup claims "email" ≠ some (.str s)) ∨
            (∀ s, claimLookup claims "name" ≠ some (.str s)) ∨
            (∀ s, claimLookup claims "picture" ≠ some (.str s))) :
    FetchAuthUser p t =
      .panic "interface conversion: interface {} is not string" := by
  rw [FetchAuthUser_eq_build p t raw claims hext
       (parseIDToken_ok_ne_empty p raw claims hparse) hparse]
  exact buildAuthUser_panics t claims hbad

set_option maxRecDepth 1000000 in
/-- Witness for amended C6 at the token lacking `sub`. -/
theorem zoho_fetchAuthUser_nonstring_claim_panics_witness :
    FetchAuthUser zohoTest noSubToken =
      .panic "interface conversion: interface {} is not string" :=
  zoho_fetchAuthUser_nonstring_claim_panics zohoTest noSubToken
    noSubIDToken noSubClaims rfl rfl
    (Or.inl (fun s hs => by
      rw [show claimLookup noSubClaims "sub" = none from rfl] at hs
      exact absurd hs (by simp)))

set_option maxRecDepth 1000000 in
/-- C7 counterexample: two runs on tokens whose claim sets differ only
in `email_verified` (false vs true) produce the same email but UNEQUAL
AuthUser records, because the raw claim copy differs. -/
theorem zoho_email_verified_records_differ_counterexample :
    FetchAuthUser zohoTest evFalseToken ≠ FetchAuthUser zohoTest evTrueToken ∧
    authUserEmailOf (FetchAuthUser zohoTest evFalseToken) = some "a@b.com" ∧
    authUserEmailOf (FetchAuthUser zohoTest evTrueToken) = some "a@b.com" := by
  refine ⟨fun he => ?_, rfl, rfl⟩
  have h1 : rawUserBoolOf (FetchAuthUser zohoTest evFalseToken)
      "email_verified" = some false := rfl
  have h2 : rawUserBoolOf (FetchAuthUser zohoTest evTrueToken)
      "email_verified" = some true := rfl
  rw [he] at h1
  rw [h1] at h2
  exact absurd h2 (by simp)

/-- C7 (amended): for claim sets accepted by validation, the email of
the result equals the email claim regardless of `email_verified`, and
two runs whose claims agree except on `email_verified` agree on every
AuthUser field except the raw claim copy (`rawUser`), which records the
differing claim; the records as a whole are therefore not equal. -/
theorem zoho_email_verified_identity_noop (p : Zoho)
    (t t' : OAuth2Token) (raw raw' : String) (claims claims' : Claims)
    (hext : tokenExtra t "id_token" = some (.str raw))
    (hparse : parseIDToken p raw = .ok claims)
    (hext' : tokenExtra t' "id_token" = some (.str raw'))
    (hparse' : parseIDToken p raw' = .ok claims')
    (hagree : ∀ k, k ≠ "email_verified" →
        claimLookup claims k = claimLookup claims' k)
    (hacc : t.accessToken = t'.accessToken)
    (href : t.refreshToken = t'.refreshToken)
    (hexp : t.expiry = t'.expiry) :
    ((FetchAuthUser p t).isOk = (FetchAuthUser p t').isOk) ∧
    (∀ u u', FetchAuthUser p t = .ok u → FetchAuthUser p t' = .ok u' →
      u.id = u'.id ∧ u.username = u'.username ∧ u.name = u'.name ∧
      u.email = u'.email ∧ u.avatarUrl = u'.avatarUrl ∧
      u.accessToken = u'.accessToken ∧ u.refreshToken = u'.refreshToken ∧
      u.expiry = u'.expiry ∧
      claimLookup claims "email" = some (.str u.email)) := by
  have hb := FetchAuthUser_eq_build p t raw claims hext
    (parseIDToken_ok_ne_empty p raw claims hparse) hparse
  have hb' := FetchAuthUser_eq_build p t' raw' claims' hext'
    (parseIDToken_ok_ne_empty p raw' claims' hparse') hparse'
  have hsub := hagree "sub" (by decide)
  have hemail := hagree "email" (by decide)
  have hname := hagree "name" (by decide)
  have hpic := hagree "picture" (by decide)
  rw [hb, hb']
  by_cases hs : ∀ s, claimLookup claims "sub" ≠ some (.str s)
  · have hs' : ∀ s, claimLookup claims' "sub" ≠ some (.str s) := by
      rw [← hsub]; exact hs
    rw [buildAuthUser_panics t claims (Or.inl hs),
        buildAuthUser_panics t' claims' (Or.inl hs')]
    exact ⟨rfl, fun u u' hu => absurd hu (by simp)⟩
  · push_neg at hs; obtain ⟨sub, hsubv⟩ := hs
    by_cases he : ∀ s, claimLookup claims "email" ≠ some (.str s)
    · have he' : ∀ s, claimLookup claims' "email" ≠ some (.str s) := by
        rw [← hemail]; exact he
      rw [buildAuthUser_panics t claims (Or.inr (Or.inl he)),
          buildAuthUser_panics t' claims' (Or.inr (Or.inl he'))]
      exact ⟨rfl, fun u u' hu => absurd hu (by simp)⟩
    · push_neg at he; obtain ⟨em, hemv⟩ := he
      by_cases hn : ∀ s, claimLookup claims "name" ≠ some (.str s)
      · have hn' : ∀ s, claimLookup claims' "name" ≠ some (.str s) := by
          rw [← hname]; exact hn
        rw [buildAuthUser_panics t claims (Or.inr (Or.inr (Or.inl hn))),
            buildAuthUser_panics t' claims' (Or.inr (Or.inr (Or.inl hn')))]
        exact ⟨rfl, fun u u' hu => absurd hu (by simp)⟩
      · push_neg at hn; obtain ⟨nm, hnmv⟩ := hn
        by_cases hq : ∀ s, claimLookup claims "picture" ≠ some (.str s)
        · have hq' : ∀ s, claimLookup claims' "picture" ≠ some (.str s) := by
            rw [← hpic]; exact hq
          rw [buildAuthUser_panics t claims (Or.inr (Or.inr (Or.inr hq))),
              buildAuthUser_panics t' claims' (Or.inr (Or.inr (Or.inr hq')))]
          exact ⟨rfl, fun u u' hu => absurd hu (by simp)⟩
        · push_neg at hq; obtain ⟨pc, hpcv⟩ := hq
          have hsubv' : claimLookup claims' "sub" = some (.str sub) := by
            rw [← hsub]; exact hsubv
          have hemv' : claimLookup claims' "email" = some (.str em) := by
            rw [← hemail]; exact hemv
          have hnmv' : claimLookup claims' "name" = some (.str nm) := by
            rw [← hname]; exact hnmv
          have hpcv' : claimLookup claims' "picture" = some (.str pc) := by
            rw [← hpic]; exact hpcv
          rw [buildAuthUser_ok t claims sub em nm pc hsubv hemv hnmv hpcv,
              buildAuthUser_ok t' claims' sub em nm pc hsubv' hemv' hnmv' hpcv']
          refine ⟨rfl, fun u u' hu hu' => ?_⟩
          injection hu with hu1
          injection hu' with hu2
          subst hu1
          subst hu2
          exact ⟨rfl, rfl, rfl, rfl, rfl, hacc, href, by rw [hexp], hemv⟩

set_option maxRecDepth 1000000 in
/-- Witness for amended C7 at the `email_verified:false`/`true` token
pair. -/
theorem zoho_email_verified_identity_noop_witness :
    ((FetchAuthUser zohoTest evFalseToken).isOk =
      (FetchAuthUser zohoTest evTrueToken).isOk) ∧
    (∀ u u', FetchAuthUser zohoTest evFalseToken = .ok u →
      FetchAuthUser zohoTest evTrueToken = .ok u' →
      u.id = u'.id ∧ u.username = u'.username ∧ u.name = u'.name ∧
      u.email = u'.email ∧ u.avatarUrl = u'.avatarUrl ∧
      u.accessToken = u'.accessToken ∧ u.refreshToken = u'.refreshToken ∧
      u.expiry = u'.expiry ∧
      claimLookup evFalseClaims "email" = some (.str u.email)) :=
  zoho_email_verified_identity_noop zohoTest evFalseToken evTrueToken
    evFalseIDToken evTrueIDToken evFalseClaims evTrueClaims
    rfl rfl rfl rfl
    (fun k hk => claimLookup_append_last evBaseClaims "email_verified" k
      (.bool false) (.bool true) hk)
    rfl rfl rfl

/-- C8: looking up "zoho" in the provider registry yields the default
Zoho instance — scopes ["profile", "email", "openid"], PKCE enabled,
display name "Zoho", empty credentials — and configuring credentials on
the returned copy leaves what the registry hands out next unchanged. -/
theorem zoho_registry_defaults :
    registryGet "zoho" = some NewZohoProvider ∧
    NewZohoProvider.scopes = ["profile", "email", "openid"] ∧
    NewZohoProvider.pkce = true ∧
    NewZohoProvider.displayName = "Zoho" ∧
    NewZohoProvider.clientId = "" ∧
    NewZohoProvider.clientSecret = "" ∧
    (∀ cid csec : String,
      ({ NewZohoProvider with clientId := cid, clientSecret := csec } : Zoho).clientId = cid ∧
      ({ NewZohoProvider with clientId := cid, clientSecret := csec } : Zoho).clientSecret = csec ∧
      registryGet "zoho" = some NewZohoProvider) :=
  ⟨rfl, rfl, rfl, rfl, rfl, rfl, fun _ _ => ⟨rfl, rfl, rfl⟩⟩

/-- C9: `parseIDToken` never reads the signature segment — two JWTs
with the same header and payload segments and different signature
segments parse identically, and `FetchAuthUser` agrees on tokens that
differ only in those signature bytes. -/
theorem zoho_parseIDToken_signature_independent (p : Zoho)
    (header payload s1 s2 : String)
    (hs1 : '.' ∉ s1.data) (hs2 : '.' ∉ s2.data) :
    parseIDToken p (mkJWT header payload s1) =
      parseIDToken p (mkJWT header payload s2) ∧
    ∀ t1 t2 : OAuth2Token,
      tokenExtra t1 "id_token" = some (.str (mkJWT header payload s1)) →
      tokenExtra t2 "id_token" = some (.str (mkJWT header payload s2)) →
      t1.accessToken = t2.accessToken →
      t1.refreshToken = t2.refreshToken →
      t1.expiry = t2.expiry →
      FetchAuthUser p t1 = FetchAuthUser p t2 := by
  have hdec := decodeJWTClaims_sig_indep header payload s1 s2 hs1 hs2
  have hparse : parseIDToken p (mkJWT header payload s1) =
      parseIDToken p (mkJWT header payload s2) := by
    rw [parseIDToken, parseIDToken, hdec]
  refine ⟨hparse, fun t1 t2 he1 he2 hacc href hexp => ?_⟩
  have hne1 := mkJWT_ne_empty header payload s1
  have hne2 := mkJWT_ne_empty header payload s2
  simp only [FetchAuthUser, he1, he2, stringAssertOk]
  simp only [hne1, hne2, or_false]
  rw [hparse]
  cases hres : parseIDToken p (mkJWT header payload s2) with
  | error e => simp
  | ok claims => simp [buildAuthUser_token_congr t1 t2 hacc href hexp claims]

set_option maxRecDepth 1000000 in
/-- Witness for C9: the good token with signature segment "x" behaves
exactly as with signature segment "ZZZZ". -/
theorem zoho_parseIDToken_signature_independent_witness :
    parseIDToken zohoTest (mkJWT jwtHeaderSeg goodPayloadSeg "x") =
      parseIDToken zohoTest (mkJWT jwtHeaderSeg goodPayloadSeg "ZZZZ") ∧
    FetchAuthUser zohoTest goodToken =
      FetchAuthUser zohoTest
        { accessToken := "at", refreshToken := "rt", expiry := ⟨5⟩,
          extra := [("id_token",
                     .str (mkJWT jwtHeaderSeg goodPayloadSeg "ZZZZ"))] } := by
  have h := zoho_parseIDToken_signature_independent zohoTest
    jwtHeaderSeg goodPayloadSeg "x" "ZZZZ" (by decide) (by decide)
  exact ⟨h.1, h.2 goodToken _ rfl rfl rfl rfl rfl⟩

/-- C10: on success the AuthUser expiry is always the value component
of `ParseDateTime` applied to the token expiry — the zero DateTime when
the conversion fails, whose error is discarded: success of
`FetchAuthUser` does not depend on the token expiry at all. -/
theorem zoho_fetchAuthUser_expiry_conversion (p : Zoho) (t : OAuth2Token)
    (h : (FetchAuthUser p t).isOk = true) :
    authUserExpiryOf (FetchAuthUser p t) = some (ParseDateTime t.expiry).1 ∧
    ((ParseDateTime t.expiry).2.isSome →
      (ParseDateTime t.expiry).1 = zeroDateTime) ∧
    ∀ e : GoTime, (FetchAuthUser p { t with expiry := e }).isOk = true := by
  obtain ⟨u, hu⟩ := (isOk_iff _).mp h
  obtain ⟨raw, claims, hext, hraw, hparse, hbuild⟩ := FetchAuthUser_ok_inv p t u hu
  obtain ⟨h1, h2, h3, h4, h5, h6, h7, h8, h9⟩ := buildAuthUser_ok_inv t claims u hbuild
  refine ⟨?_, ?_, ?_⟩
  · rw [hu]
    simp [authUserExpiryOf, h9]
  · intro hsome
    by_cases hc : 0 ≤ t.expiry.unixNano ∧ t.expiry.unixNano < 253402300800000000000
    · rw [ParseDateTime, if_pos hc] at hsome
      simp at hsome
    · rw [ParseDateTime, if_neg hc]
  · intro e
    have hext2 : tokenExtra { t with expiry := e } "id_token" = some (.str raw) := hext
    rw [FetchAuthUser_eq_build p { t with expiry := e } raw claims hext2 hraw hparse,
        buildAuthUser_ok _ claims u.id u.email u.name u.avatarUrl h1 h4 h3 h5]
    rfl

set_option maxRecDepth 1000000 in
/-- Witness for C10 at a token whose expiry conversion fails: the fetch
still succeeds and the expiry is the zero DateTime. -/
theorem zoho_fetchAuthUser_expiry_conversion_witness :
    authUserExpiryOf (FetchAuthUser zohoTest badExpiryToken) =
      some (ParseDateTime badExpiryToken.expiry).1 ∧
    ((ParseDateTime badExpiryToken.expiry).2.isSome →
      (ParseDateTime badExpiryToken.expiry).1 = zeroDateTime) ∧
    ∀ e : GoTime,
      (FetchAuthUser zohoTest { badExpiryToken with expiry := e }).isOk = true :=
  zoho_fetchAuthUser_expiry_conversion zohoTest badExpiryToken rfl

end ZohoAuth
